import Mathlib

/-!
Verification of the MedLaunch data-engineer repository (filter unit in
src/main.py, query-trigger unit in src/lambdas3.py) against its
natural-language specification.  Strings are modelled as `List Char`
(Python strings are sequences of code points).  The JSON values produced
by Python's `json` module are modelled by the inductive type `Json`
below; numbers are kept as a decimal mantissa/exponent pair (the
int/float distinction and the NaN/Infinity extensions of Python's parser
are not needed by any claim and are not modelled).
-/

deriving instance DecidableEq for Except

namespace Med

/-- JSON values as produced by `json.loads`. -/
inductive Json where
  | null : Json
  | bool (b : Bool) : Json
  | num (mant : Int) (exp10 : Int) : Json
  | str (s : List Char) : Json
  | arr (elems : List Json) : Json
  | obj (members : List (List Char × Json)) : Json

mutual

def decEqJson : (a b : Json) → Decidable (a = b)
  | .null, .null => isTrue rfl
  | .null, .bool _ => isFalse (fun h => Json.noConfusion h)
  | .null, .num _ _ => isFalse (fun h => Json.noConfusion h)
  | .null, .str _ => isFalse (fun h => Json.noConfusion h)
  | .null, .arr _ => isFalse (fun h => Json.noConfusion h)
  | .null, .obj _ => isFalse (fun h => Json.noConfusion h)
  | .bool _, .null => isFalse (fun h => Json.noConfusion h)
  | .bool x, .bool y =>
    if h : x = y then isTrue (by rw [h]) else
      isFalse (by intro hh; injection hh with h2; exact h h2)
  | .bool _, .num _ _ => isFalse (fun h => Json.noConfusion h)
  | .bool _, .str _ => isFalse (fun h => Json.noConfusion h)
  | .bool _, .arr _ => isFalse (fun h => Json.noConfusion h)
  | .bool _, .obj _ => isFalse (fun h => Json.noConfusion h)
  | .num _ _, .null => isFalse (fun h => Json.noConfusion h)
  | .num _ _, .bool _ => isFalse (fun h => Json.noConfusion h)
  | .num m e, .num m2 e2 =>
    if h1 : m = m2 then
      if h2 : e = e2 then isTrue (by rw [h1, h2]) else
        isFalse (by intro hh; injection hh with a b; exact h2 b)
    else isFalse (by intro hh; injection hh with a b; exact h1 a)
  | .num _ _, .str _ => isFalse (fun h => Json.noConfusion h)
  | .num _ _, .arr _ => isFalse (fun h => Json.noConfusion h)
  | .num _ _, .obj _ => isFalse (fun h => Json.noConfusion h)
  | .str _, .null => isFalse (fun h => Json.noConfusion h)
  | .str _, .bool _ => isFalse (fun h => Json.noConfusion h)
  | .str _, .num _ _ => isFalse (fun h => Json.noConfusion h)
  | .str s, .str t =>
    if h : s = t then isTrue (by rw [h]) else
      isFalse (by intro hh; injection hh with h2; exact h h2)
  | .str _, .arr _ => isFalse (fun h => Json.noConfusion h)
  | .str _, .obj _ => isFalse (fun h => Json.noConfusion h)
  | .arr _, .null => isFalse (fun h => Json.noConfusion h)
  | .arr _, .bool _ => isFalse (fun h => Json.noConfusion h)
  | .arr _, .num _ _ => isFalse (fun h => Json.noConfusion h)
  | .arr _, .str _ => isFalse (fun h => Json.noConfusion h)
  | .arr xs, .arr ys =>
    match decEqJsonList xs ys with
    | isTrue h => isTrue (by rw [h])
    | isFalse h => isFalse (by intro hh; injection hh with h2; exact h h2)
  | .arr _, .obj _ => isFalse (fun h => Json.noConfusion h)
  | .obj _, .null => isFalse (fun h => Json.noConfusion h)
  | .obj _, .bool _ => isFalse (fun h => Json.noConfusion h)
  | .obj _, .num _ _ => isFalse (fun h => Json.noConfusion h)
  | .obj _, .str _ => isFalse (fun h => Json.noConfusion h)
  | .obj _, .arr _ => isFalse (fun h => Json.noConfusion h)
  | .obj ms, .obj ns =>
    match decEqJsonKV ms ns with
    | isTrue h => isTrue (by rw [h])
    | isFalse h => isFalse (by intro hh; injection hh with h2; exact h h2)

def decEqJsonList : (a b : List Json) → Decidable (a = b)
  | [], [] => isTrue rfl
  | [], _ :: _ => isFalse (fun h => List.noConfusion h)
  | _ :: _, [] => isFalse (fun h => List.noConfusion h)
  | x :: xs, y :: ys =>
    match decEqJson x y with
    | isTrue h1 =>
      (match decEqJsonList xs ys with
       | isTrue h2 => isTrue (by rw [h1, h2])
       | isFalse h2 => isFalse (by intro hh; injection hh with a b; exact h2 b))
    | isFalse h1 => isFalse (by intro hh; injection hh with a b; exact h1 a)

def decEqJsonKV : (a b : List (List Char × Json)) → Decidable (a = b)
  | [], [] => isTrue rfl
  | [], _ :: _ => isFalse (fun h => List.noConfusion h)
  | _ :: _, [] => isFalse (fun h => List.noConfusion h)
  | (k, v) :: xs, (k2, v2) :: ys =>
    if hk : k = k2 then
      match decEqJson v v2 with
      | isTrue hv =>
        (match decEqJsonKV xs ys with
         | isTrue h2 => isTrue (by rw [hk, hv, h2])
         | isFalse h2 => isFalse (by intro hh; injection hh with a b; exact h2 b))
      | isFalse hv =>
        isFalse (by
          intro hh; injection hh with a b
          exact hv (congrArg Prod.snd a))
    else
      isFalse (by
        intro hh; injection hh with a b
        exact hk (congrArg Prod.fst a))

end

instance : DecidableEq Json := decEqJson

/-- JSON whitespace, as skipped by the `json` module between tokens. -/
def isJsonWs (c : Char) : Bool :=
  c = ' ' || c = '\t' || c = '\n' || c = '\r'

/-- Python `str.isspace` / `str.strip` whitespace (ASCII part). -/
def isPySpace (c : Char) : Bool :=
  c = ' ' || c = '\t' || c = '\n' || c = '\r' || c = '\x0b' || c = '\x0c'

def skipJsonWs (s : List Char) : List Char := s.dropWhile isJsonWs

/-- Value of one of the two-character escape sequences in a JSON string. -/
def escChar (c : Char) : Option Char :=
  if c = '\"' then some '\"'
  else if c = '\\' then some '\\'
  else if c = '/' then some '/'
  else if c = 'b' then some '\x08'
  else if c = 'f' then some '\x0c'
  else if c = 'n' then some '\n'
  else if c = 'r' then some '\r'
  else if c = 't' then some '\t'
  else none

def isHexDigit (c : Char) : Bool :=
  c.isDigit || ('a' ≤ c && c ≤ 'f') || ('A' ≤ c && c ≤ 'F')

def hexVal (c : Char) : Nat :=
  if c.isDigit then c.toNat - 48
  else if 'a' ≤ c && c ≤ 'f' then c.toNat - 87
  else c.toNat - 55

/-- Body of a JSON string literal, after the opening quote has been
consumed.  Returns the decoded characters and the input remaining after
the closing quote.  Control characters below 0x20 are rejected (strict
mode of Python's `json`); a `\uXXXX` escape becomes the character with
that code (lone surrogates are approximated by the replacement of
`Char.ofNat`). -/
def parseJString : List Char → Option (List Char × List Char)
  | [] => none
  | '\"' :: rest => some ([], rest)
  | '\\' :: 'u' :: h1 :: h2 :: h3 :: h4 :: rest =>
    if isHexDigit h1 && isHexDigit h2 && isHexDigit h3 && isHexDigit h4 then
      (parseJString rest).map (fun p =>
        (Char.ofNat (hexVal h1 * 4096 + hexVal h2 * 256 + hexVal h3 * 16 + hexVal h4) :: p.1, p.2))
    else none
  | '\\' :: e :: rest =>
    match escChar e with
    | some c => (parseJString rest).map (fun p => (c :: p.1, p.2))
    | none => none
  | c :: rest =>
    if c.toNat < 32 then none
    else (parseJString rest).map (fun p => (c :: p.1, p.2))

def digitsToNat (ds : List Char) : Nat :=
  ds.foldl (fun a c => a * 10 + (c.toNat - 48)) 0

/-- Exponent part of a JSON number, after the `e`/`E` has been consumed. -/
def lexExpTail : List Char → Option (Int × List Char)
  | '+' :: r =>
    match List.span Char.isDigit r with
    | ([], _) => none
    | (ds, rest) => some ((digitsToNat ds : Int), rest)
  | '-' :: r =>
    match List.span Char.isDigit r with
    | ([], _) => none
    | (ds, rest) => some (-(digitsToNat ds : Int), rest)
  | r =>
    match List.span Char.isDigit r with
    | ([], _) => none
    | (ds, rest) => some ((digitsToNat ds : Int), rest)

/-- Lex a JSON number at the head of the input, following the `json`
module's regex `-?(0|[1-9][0-9]*)(\.[0-9]+)?([eE][+-]?[0-9]+)?`: the
longest match is taken and the rest of the input is returned (so e.g.
`01` lexes as the number 0 with `1` left over).  The value is returned
as mantissa and a power of ten. -/
def parseJNumber (s : List Char) : Option ((Int × Int) × List Char) :=
  let (neg, s1) := match s with
    | '-' :: r => (true, r)
    | _ => (false, s)
  let intPart : Option (List Char × List Char) := match s1 with
    | '0' :: r => some (['0'], r)
    | c :: _ =>
      if '1' ≤ c && c ≤ '9' then some (List.span Char.isDigit s1) else none
    | [] => none
  match intPart with
  | none => none
  | some (intDs, r) =>
    let fracRes : List Char × List Char := match r with
      | '.' :: r2 =>
        (match List.span Char.isDigit r2 with
         | ([], _) => ([], r)
         | (ds, r3) => (ds, r3))
      | _ => ([], r)
    let fracDs := fracRes.1
    let r2 := fracRes.2
    let expRes : Int × List Char := match r2 with
      | c :: r3 =>
        if c = 'e' || c = 'E' then
          (match lexExpTail r3 with
           | some (v, r4) => (v, r4)
           | none => (0, r2))
        else (0, r2)
      | [] => (0, r2)
    let mantNat := digitsToNat (intDs ++ fracDs)
    let mant : Int := if neg then -(mantNat : Int) else (mantNat : Int)
    some ((mant, expRes.1 - (fracDs.length : Int)), expRes.2)

mutual

/-- Recursive-descent parse of one JSON value at the head of the input
(no leading-whitespace skip, like `JSONDecoder.raw_decode`).  `fuel`
bounds the recursion; callers pass more fuel than the input length can
consume. -/
def parseVal : Nat → List Char → Option (Json × List Char)
  | 0, _ => none
  | Nat.succ fuel, s =>
    match s with
    | 'n' :: 'u' :: 'l' :: 'l' :: rest => some (Json.null, rest)
    | 't' :: 'r' :: 'u' :: 'e' :: rest => some (Json.bool true, rest)
    | 'f' :: 'a' :: 'l' :: 's' :: 'e' :: rest => some (Json.bool false, rest)
    | '\"' :: rest => (parseJString rest).map (fun p => (Json.str p.1, p.2))
    | '[' :: rest =>
      (match skipJsonWs rest with
       | ']' :: r2 => some (Json.arr [], r2)
       | r => (parseItems fuel r).map (fun p => (Json.arr p.1, p.2)))
    | '{' :: rest =>
      (match skipJsonWs rest with
       | '}' :: r2 => some (Json.obj [], r2)
       | r => (parseMembers fuel r).map (fun p => (Json.obj p.1, p.2)))
    | _ => (parseJNumber s).map (fun p => (Json.num p.1.1 p.1.2, p.2))

/-- Elements of a JSON array after the opening bracket and any
whitespace, for a non-empty array. -/
def parseItems : Nat → List Char → Option (List Json × List Char)
  | 0, _ => none
  | Nat.succ fuel, s =>
    match parseVal fuel s with
    | none => none
    | some (v, rest) =>
      match skipJsonWs rest with
      | ',' :: r2 => (parseItems fuel (skipJsonWs r2)).map (fun p => (v :: p.1, p.2))
      | ']' :: r2 => some ([v], r2)
      | _ => none

/-- Members of a JSON object after the opening brace and any
whitespace, for a non-empty object.  Keys must be strings. -/
def parseMembers : Nat → List Char → Option (List (List Char × Json) × List Char)
  | 0, _ => none
  | Nat.succ fuel, s =>
    match s with
    | '\"' :: rest =>
      (match parseJString rest with
       | none => none
       | some (k, r1) =>
         match skipJsonWs r1 with
         | ':' :: r2 =>
           (match parseVal fuel (skipJsonWs r2) with
            | none => none
            | some (v, r3) =>
              match skipJsonWs r3 with
              | ',' :: r4 => (parseMembers fuel (skipJsonWs r4)).map (fun p => ((k, v) :: p.1, p.2))
              | '}' :: r4 => some ([(k, v)], r4)
              | _ => none)
         | _ => none)
    | _ => none

end

/-- `JSONDecoder.raw_decode` at the start of the input: one JSON value,
returning it together with the remaining input. -/
def raw_decode (s : List Char) : Option (Json × List Char) :=
  parseVal (2 * s.length + 4) s

/-- `json.loads`: skip surrounding JSON whitespace, parse exactly one
value, reject the input if anything else remains. -/
def json_loads (s : List Char) : Option Json :=
  match parseVal (2 * s.length + 4) (skipJsonWs s) with
  | some (v, rest) => if skipJsonWs rest = [] then some v else none
  | none => none

/-- Python exception classes that the modelled code can raise.  A value
of this type on the error side of an `Except` means the Python code
raises that exception at the corresponding point. -/
inductive PyErr where
  | valueError : PyErr
  | attrError : PyErr
  | typeError : PyErr
deriving DecidableEq

/-- Line breaks recognised by Python `str.splitlines` (ASCII and the
one-byte Unicode breaks; `\r\n` is handled as a single break by the
caller). -/
def isLineBreak (c : Char) : Bool :=
  c = '\n' || c = '\r' || c = '\x0b' || c = '\x0c' ||
  c = '\x1c' || c = '\x1d' || c = '\x1e' || c = '\x85' ||
  c = '\u2028' || c = '\u2029'

def splitlinesAux : List Char → List Char → List (List Char)
  | cur, [] => if cur.isEmpty then [] else [cur.reverse]
  | cur, '\r' :: '\n' :: rest => cur.reverse :: splitlinesAux [] rest
  | cur, c :: rest =>
    if isLineBreak c then cur.reverse :: splitlinesAux [] rest
    else splitlinesAux (c :: cur) rest

/-- Python `str.splitlines()`: split at line breaks, no trailing empty
line for a trailing break. -/
def splitlines (text : List Char) : List (List Char) := splitlinesAux [] text

/-- Python `str.strip()` (ASCII whitespace). -/
def pyStrip (s : List Char) : List Char :=
  ((s.dropWhile isPySpace).reverse.dropWhile isPySpace).reverse

/-- The non-blank lines of the input: the lines kept by
`[ln for ln in text.splitlines() if ln.strip()]` in `_iter_ndjson`. -/
def nonblank_lines (text : List Char) : List (List Char) :=
  (splitlines text).filter (fun ln => !ln.all isPySpace)

/-- The `for` loop of `_iter_ndjson`: parse each line in order,
failing at the first line that does not parse. -/
def loadsAll : List (List Char) → Option (List Json)
  | [] => some []
  | ln :: rest =>
    match json_loads ln with
    | none => none
    | some v => (loadsAll rest).map (fun vs => v :: vs)

/-- `_iter_ndjson` (src/main.py lines 20-30): every non-blank line must
parse as one JSON value; empty input yields the empty list; a line that
fails to parse rejects the framing (`None`). -/
def iter_ndjson (text : List Char) : Option (List Json) :=
  let lines := nonblank_lines text
  if lines.isEmpty then some [] else loadsAll lines

/-- `_parse_json_array` (src/main.py lines 32-37): the whole text must
parse as one JSON value and that value must be a list. -/
def parse_json_array (text : List Char) : Option (List Json) :=
  match json_loads text with
  | some (Json.arr xs) => some xs
  | some _ => none
  | none => none

def iterConcatAux : Nat → List Char → Option (List Json)
  | _, [] => some []
  | 0, _ => none
  | Nat.succ fuel, s =>
    let t := s.dropWhile isPySpace
    if t.isEmpty then some []
    else
      match raw_decode t with
      | none => none
      | some (v, rest) => (iterConcatAux fuel rest).map (fun l => v :: l)

/-- `_iter_concatenated` (src/main.py lines 39-50): repeatedly skip
whitespace and `raw_decode` one value until the text is exhausted; any
unparseable remainder rejects the framing. -/
def iter_concatenated (text : List Char) : Option (List Json) :=
  iterConcatAux (text.length + 1) text

/-- `detect_and_extract_records` (src/main.py lines 52-57): try the
three framings in order NDJSON, JSON array, concatenated objects; the
first one that does not return `None` wins; if all fail, raise
`ValueError`. -/
def detect_and_extract_records (text : List Char) : Except PyErr (List Json) :=
  match iter_ndjson text with
  | some res => .ok res
  | none =>
    match parse_json_array text with
    | some res => .ok res
    | none =>
      match iter_concatenated text with
      | some res => .ok res
      | none => .error .valueError

/-! ## Calendar dates (`datetime.date`) -/

/-- A Python `datetime.date` (year 1-9999). -/
structure PyDate where
  y : Nat
  m : Nat
  d : Nat
deriving DecidableEq, Repr

def isLeap (y : Nat) : Bool :=
  y % 4 = 0 && (y % 100 ≠ 0 || y % 400 = 0)

def daysInMonth (y m : Nat) : Nat :=
  if m = 2 then (if isLeap y then 29 else 28)
  else if m = 4 || m = 6 || m = 9 || m = 11 then 30
  else 31

/-- Python `date` comparison (lexicographic on year, month, day). -/
def dateLe (a b : PyDate) : Bool :=
  if a.y < b.y then true
  else if b.y < a.y then false
  else if a.m < b.m then true
  else if b.m < a.m then false
  else decide (a.d ≤ b.d)

/-- Day count of a date, from the epoch 0000-03-01 of the standard
civil-from-days conversion (proleptic Gregorian, matching the ordinals
used by `datetime.date` arithmetic up to a constant shift). -/
def toOrd (dt : PyDate) : Nat :=
  let y1 := if dt.m ≤ 2 then dt.y - 1 else dt.y
  let era := y1 / 400
  let yoe := y1 % 400
  let mp := if 2 < dt.m then dt.m - 3 else dt.m + 9
  let doy := (153 * mp + 2) / 5 + dt.d - 1
  let doe := yoe * 365 + yoe / 4 - yoe / 100 + doy
  era * 146097 + doe

/-- Inverse of `toOrd` (standard days-to-civil conversion). -/
def fromOrd (z : Nat) : PyDate :=
  let era := z / 146097
  let doe := z % 146097
  let yoe := (doe - doe / 1460 + doe / 36524 - doe / 146096) / 365
  let y1 := yoe + era * 400
  let doy := doe - (365 * yoe + yoe / 4 - yoe / 100)
  let mp := (5 * doy + 2) / 153
  let dd := doy - (153 * mp + 2) / 5 + 1
  let mm := if mp < 10 then mp + 3 else mp - 9
  ⟨if mm ≤ 2 then y1 + 1 else y1, mm, dd⟩

/-- `date + timedelta(days=n)`. -/
def addDays (dt : PyDate) (n : Int) : PyDate :=
  fromOrd ((toOrd dt : Int) + n).toNat

/-- `date.isoformat()`: zero-padded `YYYY-MM-DD`. -/
def padNum (width n : Nat) : List Char :=
  let s := (Nat.toDigits 10 n)
  List.replicate (width - s.length) '0' ++ s

def dateIso (dt : PyDate) : List Char :=
  padNum 4 dt.y ++ '-' :: (padNum 2 dt.m ++ '-' :: padNum 2 dt.d)

/-- `date.fromisoformat` on a string of at most 10 characters: accepts
exactly `YYYY-MM-DD` with a valid calendar date (the extra input forms
accepted from Python 3.11 on are not modelled). -/
def fromIso (s : List Char) : Option PyDate :=
  match s with
  | [a, b, c, d, '-', e, f, '-', g, h] =>
    if a.isDigit && b.isDigit && c.isDigit && d.isDigit &&
       e.isDigit && f.isDigit && g.isDigit && h.isDigit then
      let dv : Char → Nat := fun ch => ch.toNat - 48
      let yy := dv a * 1000 + dv b * 100 + dv c * 10 + dv d
      let mm := dv e * 10 + dv f
      let dd := dv g * 10 + dv h
      if 1 ≤ yy && 1 ≤ mm && mm ≤ 12 && 1 ≤ dd && dd ≤ daysInMonth yy mm then
        some ⟨yy, mm, dd⟩
      else none
    else none
  | _ => none

/-- Python `round` on an exact value: round half to even. -/
def pyRound (q : ℚ) : Int :=
  let f := ⌊q⌋
  let r := q - (f : ℚ)
  if r < 1 / 2 then f
  else if 1 / 2 < r then f + 1
  else if f % 2 = 0 then f else f + 1

/-! ## Expiry-window filter (src/main.py lines 59-72) -/

/-- Python truthiness of a JSON-decoded value. -/
def pyTruthy : Json → Bool
  | .null => false
  | .bool b => b
  | .num m _ => m ≠ 0
  | .str s => !s.isEmpty
  | .arr xs => !xs.isEmpty
  | .obj ms => !ms.isEmpty

/-- `dict.get(k)` on a JSON object's members (last duplicate wins, as
in the dict built by `json.loads`); `none` means Python `None`. -/
def objGet (ms : List (List Char × Json)) (k : List Char) : Option Json :=
  (ms.reverse.find? (fun p => p.1 = k)).map Prod.snd

/-- First-occurrence key order of a dict built from these members. -/
def dedupKeys : List (List Char × Json) → List (List Char)
  | [] => []
  | (k, _) :: rest =>
    let tl := dedupKeys rest
    k :: tl.filter (fun k2 => k2 ≠ k)

/-- Python `for x in v`: the sequence of items of `v`, or `TypeError`
if `v` is not iterable.  Iterating a string yields its characters as
one-character strings; iterating a dict yields its keys. -/
def iterElems : Json → Except PyErr (List Json)
  | .arr xs => .ok xs
  | .str s => .ok (s.map (fun c => Json.str [c]))
  | .obj ms => .ok ((dedupKeys ms).map Json.str)
  | _ => .error .typeError

/-- `_parse_iso_date` (src/main.py lines 61-65) applied to the value of
`acc.get("valid_until")`: a falsy value gives `None`; a truthy
non-string raises `AttributeError` at `s.strip()` (which sits outside
the `try`); a truthy string is stripped, truncated to 10 characters and
parsed, unparseable strings giving `None`. -/
def parse_iso_date (v : Json) : Except PyErr (Option PyDate) :=
  if !pyTruthy v then .ok none
  else
    match v with
    | .str s => .ok (fromIso ((pyStrip s).take 10))
    | _ => .error .attrError

/-- One accreditation entry of the loop body of
`accreditation_expires_within`: look up `valid_until` (raising
`AttributeError` if the entry is not a dict), parse it, and test
`today <= d <= threshold`. -/
def accEntryMatches (threshold today : PyDate) (acc : Json) : Except PyErr Bool :=
  match acc with
  | .obj ms =>
    match parse_iso_date ((objGet ms ("valid_until").data).getD Json.null) with
    | .error e => .error e
    | .ok none => .ok false
    | .ok (some d) => .ok (dateLe today d && dateLe d threshold)
  | _ => .error .attrError

/-- The `for` loop of `accreditation_expires_within`: return `True` at
the first matching entry, `False` after the last entry. -/
def accLoop (threshold today : PyDate) : List Json → Except PyErr Bool
  | [] => .ok false
  | acc :: rest =>
    match accEntryMatches threshold today acc with
    | .error e => .error e
    | .ok true => .ok true
    | .ok false => accLoop threshold today rest

/-- `accreditation_expires_within` (src/main.py lines 67-72):
`record.get("accreditations") or []` (so falsy values iterate as the
empty list), then the entry loop.  A non-dict record raises
`AttributeError` at `record.get`. -/
def accreditation_expires_within (record : Json) (threshold today : PyDate) :
    Except PyErr Bool :=
  match record with
  | .obj kvs =>
    let v := (objGet kvs ("accreditations").data).getD Json.null
    let v2 := if pyTruthy v then v else Json.arr []
    match iterElems v2 with
    | .error e => .error e
    | .ok elems => accLoop threshold today elems
  | _ => .error .attrError

/-! ## Object enumeration and per-object processing (src/main.py lines 74-137)

The object store is injected explicitly: a listing is a sequence of
page results (each page either a list of keys or a client error raised
while fetching that page), a read is an `Except` of the decoded text
(read and UTF-8 decode failures collapsed into one error side), and a
write either succeeds or fails with a client error.  The body written
by `put_object` is not modelled — no claim constrains it — so a write
is recorded as the pair (bucket, key) it targets. -/

/-- An object-store client error (`BotoCoreError`/`ClientError`). -/
inductive S3Err where
  | client : S3Err
deriving DecidableEq

/-- Failure modes of `get_object(...)["Body"].read().decode("utf-8")`. -/
inductive ObjErr where
  | client : ObjErr
  | decode : ObjErr
deriving DecidableEq

/-- Loop of `list_keys` (src/main.py lines 75-84) over the paginator's
pages: keys not ending in `/` are yielded; a client error raised while
fetching a page is caught, logged and swallowed, which silently ends
the generator. -/
def list_keys_aux : List (Except S3Err (List (List Char))) → List (List Char)
  | [] => []
  | .error _ :: _ => []
  | .ok objs :: rest =>
    objs.filter (fun k => k.getLast? ≠ some '/') ++ list_keys_aux rest

/-- `list_keys` as observed by its caller: the generator never raises,
so the result is always on the `ok` side. -/
def list_keys (pages : List (Except S3Err (List (List Char)))) :
    Except S3Err (List (List Char)) :=
  .ok (list_keys_aux pages)

/-- `key.rsplit("/", 1)[-1]`: the part after the last `/`. -/
def basename (k : List Char) : List Char :=
  (k.reverse.takeWhile (fun c => c ≠ '/')).reverse

/-- `base.rsplit(".", 1)[0]`: everything before the last `.`, or the
whole string when there is no dot. -/
def stripExt (s : List Char) : List Char :=
  if '.' ∈ s then ((s.reverse.dropWhile (fun c => c ≠ '.')).drop 1).reverse
  else s

/-- `out_prefix.rstrip("/")`. -/
def rstripSlash (s : List Char) : List Char :=
  (s.reverse.dropWhile (fun c => c = '/')).reverse

/-- The output key of `process_object` (src/main.py lines 105-106):
`out_prefix.rstrip("/") + "/" + base + "_filtered.ndjson"` where `base`
is the source basename without its last extension. -/
def out_key_for (key outPfx : List Char) : List Char :=
  rstripSlash outPfx ++ '/' :: (stripExt (basename key) ++ ("_filtered.ndjson").data)

/-- The list comprehension
`[r for r in records if accreditation_expires_within(r, threshold, today)]`:
evaluated left to right, the first exception propagating. -/
def filter_expiring (threshold today : PyDate) : List Json → Except PyErr (List Json)
  | [] => .ok []
  | r :: rs =>
    match accreditation_expires_within r threshold today with
    | .error e => .error e
    | .ok b =>
      (filter_expiring threshold today rs).map (fun rest => if b then r :: rest else rest)

/-- `process_object` (src/main.py lines 86-117).  `getBody` is the
outcome of reading and UTF-8-decoding the source object, `putOk`
whether `put_object` succeeds.  The first component is the value
returned (or the exception raised); the second is the trace of write
calls issued, as (bucket, key) pairs.  Read, decode and parse errors
are caught and give 0; the filter comprehension sits outside the `try`
so its exceptions propagate; an empty filtered list writes nothing; a
write failure is caught and gives 0. -/
def process_object (getBody : Except ObjErr (List Char)) (putOk : Bool)
    (bucket key outPfx2 : List Char) (threshold today : PyDate) :
    Except PyErr Nat × List (List Char × List Char) :=
  match getBody with
  | .error _ => (.ok 0, [])
  | .ok text =>
    match detect_and_extract_records text with
    | .error _ => (.ok 0, [])
    | .ok records =>
      match filter_expiring threshold today records with
      | .error e => (.error e, [])
      | .ok filtered =>
        if filtered.isEmpty then (.ok 0, [])
        else
          let outKey := out_key_for key outPfx2
          if putOk then (.ok filtered.length, [(bucket, outKey)])
          else (.ok 0, [(bucket, outKey)])

/-- The threshold computation of `run_job` (src/main.py line 122):
`today + timedelta(days=int(round(months * 30.5)))`. -/
def run_threshold (months : Int) (today : PyDate) : PyDate :=
  addDays today (pyRound ((months : ℚ) * 30.5))

/-- The bulk loop of `run_job`: process each key, accumulating file and
record counts; an exception escaping `process_object` aborts the loop. -/
def run_keys (getBody : List Char → Except ObjErr (List Char))
    (putOk : List Char → Bool) (bucket outPfx2 : List Char)
    (threshold today : PyDate) : List (List Char) → Except PyErr (Nat × Nat)
  | [] => .ok (0, 0)
  | k :: rest =>
    match (process_object (getBody k) (putOk k) bucket k outPfx2 threshold today).1 with
    | .error e => .error e
    | .ok n =>
      match run_keys getBody putOk bucket outPfx2 threshold today rest with
      | .error e => .error e
      | .ok (f, w) => .ok (f + 1, w + n)

/-- `run_job` (src/main.py lines 119-137): with a target key, process
only that key against `only_bucket or default_bucket`; otherwise
enumerate the default bucket's input prefix and process every key
found.  Returns `(files_scanned, records_written)`. -/
def run_job (defaultBucket outPfx2 : List Char) (months : Int) (today : PyDate)
    (pages : List (Except S3Err (List (List Char))))
    (getBody : List Char → Except ObjErr (List Char))
    (putOk : List Char → Bool)
    (onlyBucket onlyKey : Option (List Char)) : Except PyErr (Nat × Nat) :=
  let threshold := run_threshold months today
  let bkt := onlyBucket.getD defaultBucket
  match onlyKey with
  | some k =>
    (match (process_object (getBody k) (putOk k) bkt k outPfx2 threshold today).1 with
     | .error e => .error e
     | .ok n => .ok (1, n))
  | none =>
    -- `for key in list_keys(...)`: the generator never raises (its
    -- `except` clause swallows client errors), so iteration simply
    -- runs over the keys it yields.
    run_keys getBody putOk defaultBucket outPfx2 threshold today (list_keys_aux pages)

/-! ## Query-trigger unit (src/lambdas3.py)

The Athena client is injected as a function from poll round to the
state string returned by `get_query_execution`, and the invocation's
remaining time as a function from poll round to
`context.get_remaining_time_in_millis()`.  Delays are exact rationals:
the code's binary floating point evaluates `1.0`, `* 1.7` and
`min(_, 10.0)` with rounding that never changes a comparison made by
this loop, so the schedule structure is identical. -/

/-- Terminal check of `wait_for_query` (src/lambdas3.py line 77). -/
def isTerminalState (s : List Char) : Bool :=
  s = ("SUCCEEDED").data || s = ("FAILED").data || s = ("CANCELLED").data

/-- Outcome of the poll loop: a returned terminal state, or the
`TimeoutError` raised for a local timeout. -/
inductive WaitResult where
  | finished (s : List Char) : WaitResult
  | timedOut : WaitResult
deriving DecidableEq

/-- One round of `wait_for_query` (src/lambdas3.py lines 72-86): get
the state; return it if terminal; raise `TimeoutError` if less than
10000 ms of budget remain; otherwise sleep `delay` and continue with
`min(delay * 1.7, 10.0)`.  `fuel` bounds the rounds (`none` = the loop
is still running after `fuel` rounds); the returned list is the
sequence of sleeps performed, in order. -/
def waitAux (poll : Nat → List Char) (remaining : Nat → Int) :
    Nat → Nat → ℚ → Option (WaitResult × List ℚ)
  | 0, _, _ => none
  | Nat.succ fuel, n, delay =>
    if isTerminalState (poll n) then some (.finished (poll n), [])
    else if remaining n < 10000 then some (.timedOut, [])
    else
      match waitAux poll remaining fuel (n + 1) (min (delay * 1.7) 10) with
      | some (r, sleeps) => some (r, delay :: sleeps)
      | none => none

/-- `wait_for_query`, entered with `delay = 1.0` at round 0. -/
def wait_for_query (poll : Nat → List Char) (remaining : Nat → Int)
    (fuel : Nat) : Option (WaitResult × List ℚ) :=
  waitAux poll remaining fuel 0 1

/-- Backoff value after `i` updates starting from `d`. -/
def backoffFrom (d : ℚ) : Nat → ℚ
  | 0 => d
  | Nat.succ i => backoffFrom (min (d * 1.7) 10) i

/-- The delay slept at poll round `i`: 1 time-unit at round 0, then
multiplied by 1.7 and capped at 10. -/
def pollDelay (i : Nat) : ℚ := backoffFrom 1 i

/-- `urllib.parse.quote(s, safe="")`: percent-encode the UTF-8 bytes of
every character outside `A-Z a-z 0-9 _ . - ~`. -/
def quoteUnreserved (c : Char) : Bool :=
  c.isAlpha || c.isDigit || c = '_' || c = '.' || c = '-' || c = '~'

def hexDigitUpper (n : Nat) : Char :=
  if n < 10 then Char.ofNat (48 + n) else Char.ofNat (55 + n)

def utf8Bytes (c : Char) : List Nat :=
  let n := c.toNat
  if n < 0x80 then [n]
  else if n < 0x800 then [0xC0 + n / 64, 0x80 + n % 64]
  else if n < 0x10000 then [0xE0 + n / 4096, 0x80 + n / 64 % 64, 0x80 + n % 64]
  else [0xF0 + n / 262144, 0x80 + n / 4096 % 64, 0x80 + n / 64 % 64, 0x80 + n % 64]

def pctByte (b : Nat) : List Char :=
  ['%', hexDigitUpper (b / 16), hexDigitUpper (b % 16)]

def quote_all (s : List Char) : List Char :=
  s.flatMap (fun c => if quoteUnreserved c then [c] else (utf8Bytes c).flatMap pctByte)

/-- `results_prefix_for_object` (src/lambdas3.py lines 51-57):
`RESULTS_S3_PREFIX.rstrip("/") + "/" + src_bucket + "/" + quote(src_key) + "/" + today + "/"`. -/
def results_prefix_for_object (resultsPfx srcBucket srcKey todayStr : List Char) :
    List Char :=
  rstripSlash resultsPfx ++ '/' :: (srcBucket ++ '/' ::
    (quote_all srcKey ++ '/' :: (todayStr ++ ['/'])))

/-- Split off the part before the first occurrence of `sep`. -/
def breakAtSep (sep : Char) : List Char → Option (List Char × List Char)
  | [] => none
  | c :: cs =>
    if c = sep then some ([], cs)
    else (breakAtSep sep cs).map (fun p => (c :: p.1, p.2))

/-- Python `s.split(sep, maxsplit)` for a one-character separator. -/
def splitN (sep : Char) : Nat → List Char → List (List Char)
  | 0, s => [s]
  | Nat.succ n, s =>
    match breakAtSep sep s with
    | none => [s]
    | some (a, rest) => a :: splitN sep n rest

/-- Errors that can escape one iteration of the query-trigger
`lambda_handler`; all of them are re-raised by its `except` clauses. -/
inductive LambdaErr where
  | awsClient : LambdaErr
  | localTimeout : LambdaErr
  | runtimeFailed : LambdaErr
  | indexError : LambdaErr
deriving DecidableEq

/-- Outcome of `wait_for_query` as seen by the handler. -/
inductive WaitOutcome where
  | observed (s : List Char) : WaitOutcome
  | timedOutLocal : WaitOutcome
  | apiError : WaitOutcome
deriving DecidableEq

/-- A `put_object` call made by `put_marker`: target bucket, target
key, and the JSON fields of the marker in serialization order. -/
structure MarkerPut where
  bucket : List Char
  key : List Char
  fields : List (List Char × List Char)
deriving DecidableEq

/-- The marker dict of src/lambdas3.py lines 128-135, in the order its
keys are written. -/
def markerFields (srcBucket srcKey todayStr qid outPfx3 : List Char) :
    List (List Char × List Char) :=
  [(("source_bucket").data, srcBucket),
   (("source_key").data, srcKey),
   (("date").data, todayStr),
   (("query_execution_id").data, qid),
   (("output_prefix").data, outPfx3),
   (("status").data, ("SUCCEEDED").data)]

/-- One iteration of the query-trigger `lambda_handler` loop
(src/lambdas3.py lines 101-145) for an s3 record, after submission.
`startRes` is the outcome of `start_unload`, `wait` the outcome of
`wait_for_query`, `markerPutOk` whether the marker `put_object`
succeeds.  First component: the exception re-raised, if any; second:
the trace of marker writes attempted. -/
def handle_record (resultsPfx : List Char) (today : PyDate)
    (srcBucket srcKey : List Char) (startRes : Except S3Err (List Char))
    (wait : WaitOutcome) (markerPutOk : Bool) :
    Except LambdaErr Unit × List MarkerPut :=
  let todayStr := dateIso today
  let outPfx3 := results_prefix_for_object resultsPfx srcBucket srcKey todayStr
  match startRes with
  | .error _ => (.error .awsClient, [])
  | .ok qid =>
    match wait with
    | .apiError => (.error .awsClient, [])
    | .timedOutLocal => (.error .localTimeout, [])
    | .observed s =>
      if s ≠ ("SUCCEEDED").data then (.error .runtimeFailed, [])
      else
        match (splitN '/' 3 outPfx3).get? 2, (splitN '/' 3 outPfx3).get? 3 with
        | some outBucket, some outKeyPfx =>
          let put : MarkerPut :=
            ⟨outBucket, outKeyPfx ++ ("marker.json").data,
             markerFields srcBucket srcKey todayStr qid outPfx3⟩
          (if markerPutOk then .ok () else .error .awsClient, [put])
        | _, _ => (.error .indexError, [])

/-! ## Spec-side predicates

These definitions follow the words of the specification (section 4.3
and the testable properties), for comparison with the functions
translated from the code. -/

/-- Modelled from the spec: one accreditation entry "has a
`valid_until` whose (whitespace-stripped) first 10 characters parse as
a calendar date `d` with `today <= d <= threshold`". -/
def specEntryMatches (threshold today : PyDate) (e : Json) : Bool :=
  match e with
  | .obj ms =>
    match objGet ms ("valid_until").data with
    | some (.str s) =>
      (match fromIso ((pyStrip s).take 10) with
       | some d => dateLe today d && dateLe d threshold
       | none => false)
    | _ => false
  | _ => false

/-- Modelled from the spec: "at least one entry of the record's
accreditations sequence" matches; a record without an accreditations
sequence has no matching entry. -/
def spec_has_expiring (record : Json) (threshold today : PyDate) : Bool :=
  match record with
  | .obj kvs =>
    (match objGet kvs ("accreditations").data with
     | some (.arr entries) => entries.any (specEntryMatches threshold today)
     | _ => false)
  | _ => false

/-- An accreditation entry on which the code's loop body cannot raise:
a mapping whose `valid_until`, when present and truthy, is a string. -/
def wfEntry (e : Json) : Bool :=
  match e with
  | .obj ms =>
    (match (objGet ms ("valid_until").data).getD Json.null with
     | .str _ => true
     | v => !pyTruthy v)
  | _ => false

/-- A record's accreditations value on which the code cannot raise:
falsy (iterated as the empty list), or a sequence of well-formed
entries. -/
def wfAccs (v : Json) : Bool :=
  if !pyTruthy v then true
  else
    match v with
    | .arr entries => entries.all wfEntry
    | _ => false

/-- A record (mapping) on which `accreditation_expires_within` cannot
raise. -/
def wf_record (kvs : List (List Char × Json)) : Bool :=
  wfAccs ((objGet kvs ("accreditations").data).getD Json.null)

/-! ## Concrete instances used by witness theorems -/

def c4poll : Nat → List Char := fun n => if n ≥ 2 then ("SUCCEEDED").data else ("RUNNING").data

def c4rem : Nat → Int := fun _ => 30000

def c5rec : Json :=
  .obj [(("accreditations").data, .arr
    [.obj [(("valid_until").data, .str ("2024-03-01").data)]])]

def c5text : List Char :=
  ("\x7b\"accreditations\":[\x7b\"valid_until\":\"2024-03-01\"\x7d]\x7d").data

end Med

namespace Med

/-! ## Helper lemmas -/

theorem takeWhile_append_stop {p : Char → Bool} (xs ys : List Char) (c : Char)
    (hall : ∀ x ∈ xs, p x = true) (hc : p c = false) :
    List.takeWhile p (xs ++ c :: ys) = xs := by
  induction xs with
  | nil => simp [List.takeWhile_cons, hc]
  | cons a as ih =>
    have ha : p a = true := hall a (by simp)
    rw [List.cons_append, List.takeWhile_cons, ha]
    simp only []
    exact congrArg (a :: ·) (ih (fun x hx => hall x (by simp [hx])))

theorem dropWhile_append_stop {p : Char → Bool} (xs ys : List Char) (c : Char)
    (hall : ∀ x ∈ xs, p x = true) (hc : p c = false) :
    List.dropWhile p (xs ++ c :: ys) = c :: ys := by
  induction xs with
  | nil => simp [List.dropWhile_cons, hc]
  | cons a as ih =>
    have ha : p a = true := hall a (by simp)
    rw [List.cons_append, List.dropWhile_cons, ha]
    exact ih (fun x hx => hall x (by simp [hx]))

theorem basename_no_slash (k : List Char) : ∀ c ∈ basename k, c ≠ '/' := by
  intro c hc
  unfold basename at hc
  rw [List.mem_reverse] at hc
  simpa using List.mem_takeWhile_imp hc

theorem stripExt_subset (s : List Char) : ∀ c ∈ stripExt s, c ∈ s := by
  intro c hc
  unfold stripExt at hc
  by_cases hdot : '.' ∈ s
  · simp only [hdot, if_pos] at hc
    rw [List.mem_reverse] at hc
    have h1 : c ∈ s.reverse.dropWhile (fun ch => ch ≠ '.') :=
      (List.drop_subset 1 _) hc
    have h2 : c ∈ s.reverse := (List.dropWhile_sublist _).subset h1
    exact List.mem_reverse.mp h2
  · simpa [hdot] using hc

theorem basename_append (a t : List Char) (ht : ∀ c ∈ t, c ≠ '/') :
    basename (a ++ '/' :: t) = t := by
  unfold basename
  have h1 : (a ++ '/' :: t).reverse = t.reverse ++ '/' :: a.reverse := by
    simp [List.reverse_append]
  rw [h1, takeWhile_append_stop _ _ _ (fun x hx => by
        simpa using ht x (List.mem_reverse.mp hx)) (by decide)]
  exact List.reverse_reverse t

theorem stripExt_filtered_suffix (B : List Char) :
    stripExt (B ++ ("_filtered.ndjson").data) = B ++ ("_filtered").data := by
  unfold stripExt
  have hdot : '.' ∈ B ++ ("_filtered.ndjson").data := by
    refine List.mem_append_right _ ?_
    decide
  rw [if_pos hdot]
  have h1 : (B ++ ("_filtered.ndjson").data).reverse =
      ("nosjdn").data ++ '.' :: (("deretlif_").data ++ B.reverse) := by
    rw [List.reverse_append]
    rw [show (("_filtered.ndjson").data).reverse =
      ("nosjdn").data ++ '.' :: ("deretlif_").data from by decide]
    simp [List.append_assoc]
  rw [h1, dropWhile_append_stop _ _ _ (by decide) (by decide)]
  simp only [List.drop_succ_cons, List.drop_zero, List.reverse_append,
    List.reverse_reverse]
  rw [show (("deretlif_").data).reverse = ("_filtered").data from by decide]

theorem out_key_ne (key oP : List Char) : out_key_for key oP ≠ key := by
  intro h
  have hBs : ∀ c ∈ stripExt (basename key) ++ ("_filtered.ndjson").data, c ≠ '/' := by
    intro c hc
    rcases List.mem_append.mp hc with h1 | h1
    · exact basename_no_slash key c (stripExt_subset _ c h1)
    · intro hceq
      rw [hceq] at h1
      exact absurd h1 (by decide)
  have h1 : basename (out_key_for key oP) =
      stripExt (basename key) ++ ("_filtered.ndjson").data :=
    basename_append _ _ hBs
  rw [h] at h1
  have h2 : stripExt (basename key) =
      stripExt (basename key) ++ ("_filtered").data := by
    conv_lhs => rw [h1]
    exact stripExt_filtered_suffix _
  have h3 := congrArg List.length h2
  simp [List.length_append] at h3

end Med

namespace Med

/-- C10: `process_object` never writes anywhere except the key
`{output_prefix}/{source basename without last extension}_filtered.ndjson`
in the source bucket, and that key never equals the source key.  The
first conjunct: every run's write trace is empty or the single derived
put; the second: the derived key differs from the source key for every
source key and output prefix. -/
theorem C10_no_source_overwrite (getBody : Except ObjErr (List Char)) (putOk : Bool)
    (bucket key oP : List Char) (threshold today : PyDate) :
    ((process_object getBody putOk bucket key oP threshold today).2 = [] ∨
      (process_object getBody putOk bucket key oP threshold today).2 =
        [(bucket, out_key_for key oP)]) ∧
    out_key_for key oP ≠ key := by
  refine ⟨?_, out_key_ne key oP⟩
  rcases getBody with e | text
  · exact Or.inl rfl
  · rcases hd : detect_and_extract_records text with e | recs
    · left
      simp [process_object, hd]
    · rcases hf : filter_expiring threshold today recs with e | filtered
      · left
        simp [process_object, hd, hf]
      · by_cases he : filtered.isEmpty
        · left
          simp [process_object, hd, hf, he]
        · right
          rcases putOk with _ | _ <;> simp [process_object, hd, hf, he]

/-- C8 (counterexample): a client error raised while enumerating a
prefix is not re-raised: `list_keys` over a single failing page returns
normally with the empty key list instead of propagating the error. -/
theorem C8_counterexample :
    list_keys [Except.error S3Err.client] = .ok [] ∧
    list_keys [Except.error S3Err.client] ≠ .error S3Err.client := by
  exact ⟨rfl, by decide⟩

/-- C8 (amended): an object-store client error raised during
enumeration is logged and swallowed, not re-raised: `list_keys` never
raises, and at the first failing page it stops, yielding exactly the
keys collected from the earlier pages — the batch driver then behaves
as if the prefix held only those keys. -/
theorem C8_swallows_listing_errors (okpages : List (List (List Char)))
    (post : List (Except S3Err (List (List Char)))) (e : S3Err) :
    list_keys (okpages.map Except.ok ++ Except.error e :: post) =
      .ok (list_keys_aux (okpages.map Except.ok)) ∧
    ∀ pages e2, list_keys pages ≠ Except.error e2 := by
  constructor
  · unfold list_keys
    congr 1
    induction okpages with
    | nil => rfl
    | cons pobjs ps ih =>
      simp only [List.map_cons, List.cons_append, list_keys_aux, List.append_eq]
      rw [ih]
  · intro pages e2 h
    exact Except.noConfusion h

/-- C9: the filter window threshold of `run_job` is
`today + round(months * 30.5) days` (with Python's half-to-even
`round`); for `months = 6` and `today = 2024-01-01` the rounded offset
is 183 days and the threshold is 2024-07-02. -/
theorem C9_threshold_formula :
    (∀ (months : Int) (today : PyDate),
       run_threshold months today = addDays today (pyRound ((months : ℚ) * 30.5))) ∧
    pyRound ((6 : ℚ) * 30.5) = 183 ∧
    addDays ⟨2024, 1, 1⟩ 183 = ⟨2024, 7, 2⟩ ∧
    run_threshold 6 ⟨2024, 1, 1⟩ = ⟨2024, 7, 2⟩ := by
  have h6 : pyRound ((6 : ℚ) * 30.5) = 183 := by
    have h : ((6 : ℚ) * 30.5) = 183 := by norm_num
    rw [h]; unfold pyRound; norm_num
  refine ⟨fun months today => rfl, h6, by decide, ?_⟩
  unfold run_threshold
  rw [show ((6 : Int) : ℚ) = (6 : ℚ) by norm_num, h6]
  decide

/-- C1 (counterexample): for the single-line JSON array of objects
`[{"a":1},{"b":2}]`, `detect_and_extract_records` does not return the
array's two elements: the NDJSON framing wins and the result is one
record that is the whole array. -/
theorem C1_counterexample :
    detect_and_extract_records ("[\x7b\"a\":1\x7d,\x7b\"b\":2\x7d]").data =
      .ok [Json.arr [Json.obj [(['a'], Json.num 1 0)], Json.obj [(['b'], Json.num 2 0)]]] ∧
    detect_and_extract_records ("[\x7b\"a\":1\x7d,\x7b\"b\":2\x7d]").data ≠
      .ok [Json.obj [(['a'], Json.num 1 0)], Json.obj [(['b'], Json.num 2 0)]] := by
  exact ⟨by decide, by decide⟩

/-- C1 (amended): for input that is a single valid JSON array,
`detect_and_extract_records` returns exactly that array's elements
whenever the NDJSON framing rejects the text (as it does for any
multi-line serialization with a line that is not standalone JSON); a
whole array on a single line is instead returned as one NDJSON record
containing the array itself. -/
theorem C1_array_elements (text : List Char) (xs : List Json)
    (h1 : iter_ndjson text = none) (h2 : json_loads text = some (Json.arr xs)) :
    detect_and_extract_records text = .ok xs := by
  unfold detect_and_extract_records parse_json_array
  rw [h1, h2]

/-- C1 witness: a two-object array split across lines; its first line
`[` is not standalone JSON, so NDJSON rejects and the array framing
returns the elements. -/
theorem C1_array_elements_witness :
    detect_and_extract_records ("[\n\x7b\"a\":1\x7d,\n\x7b\"b\":2\x7d\n]").data =
      .ok [Json.obj [(['a'], Json.num 1 0)], Json.obj [(['b'], Json.num 2 0)]] :=
  C1_array_elements _ _ (by decide) (by decide)

end Med

namespace Med

theorem loadsAll_of_all (l : List (List Char))
    (h : ∀ ln ∈ l, (json_loads ln).isSome = true) :
    ∃ rs, loadsAll l = some rs ∧ rs.length = l.length ∧
      ∀ i (hi : i < l.length) (hi2 : i < rs.length),
        json_loads (l.get ⟨i, hi⟩) = some (rs.get ⟨i, hi2⟩) := by
  induction l with
  | nil => exact ⟨[], rfl, rfl, fun i hi => absurd hi (by simp)⟩
  | cons ln rest ih =>
    have h1 : (json_loads ln).isSome = true := h ln (by simp)
    obtain ⟨v, hv⟩ := Option.isSome_iff_exists.mp h1
    obtain ⟨rs, hrs, hlen, hidx⟩ := ih (fun x hx => h x (by simp [hx]))
    refine ⟨v :: rs, ?_, by simp [hlen], ?_⟩
    · simp [loadsAll, hv, hrs]
    · intro i hi hi2
      cases i with
      | zero => simpa using hv
      | succ j => simpa using hidx j (by simpa using hi) (by simpa using hi2)

/-- C2: `detect_and_extract_records` tries NDJSON, then JSON array,
then concatenated objects, returning the first framing that validates
(first conjunct, definitional); when every non-blank line parses as a
JSON value it returns one record per non-blank line in line order
(second conjunct); empty or all-blank input gives the empty sequence
(third conjunct). -/
theorem C2_detect_priority (text : List Char) :
    (detect_and_extract_records text =
      match iter_ndjson text with
      | some r => .ok r
      | none =>
        match parse_json_array text with
        | some r => .ok r
        | none =>
          match iter_concatenated text with
          | some r => .ok r
          | none => .error PyErr.valueError) ∧
    ((∀ ln ∈ nonblank_lines text, (json_loads ln).isSome = true) →
      ∃ rs, detect_and_extract_records text = .ok rs ∧
        rs.length = (nonblank_lines text).length ∧
        ∀ i (hi : i < (nonblank_lines text).length) (hi2 : i < rs.length),
          json_loads ((nonblank_lines text).get ⟨i, hi⟩) = some (rs.get ⟨i, hi2⟩)) ∧
    (nonblank_lines text = [] → detect_and_extract_records text = .ok []) := by
  refine ⟨rfl, ?_, ?_⟩
  · intro h
    obtain ⟨rs, hrs, hlen, hidx⟩ := loadsAll_of_all (nonblank_lines text) h
    have hnd : iter_ndjson text = some rs := by
      unfold iter_ndjson
      by_cases hemp : (nonblank_lines text).isEmpty
      · have he2 : nonblank_lines text = [] := List.isEmpty_iff.mp hemp
        rw [he2] at hrs
        simp only [loadsAll, Option.some.injEq] at hrs
        simp [hemp, hrs]
      · simp [hemp, hrs]
    refine ⟨rs, ?_, hlen, hidx⟩
    unfold detect_and_extract_records
    rw [hnd]
  · intro h
    have hnd : iter_ndjson text = some [] := by
      unfold iter_ndjson
      simp [h]
    unfold detect_and_extract_records
    rw [hnd]

/-- C2 witness: `"1\n\n2\n"` has non-blank lines `1` and `2`, each a
JSON value, and yields those two records in order; all-blank input
yields the empty sequence. -/
theorem C2_detect_priority_witness :
    (∃ rs, detect_and_extract_records ("1\n\n2\n").data = .ok rs ∧
       rs.length = (nonblank_lines ("1\n\n2\n").data).length ∧
       ∀ i (hi : i < (nonblank_lines ("1\n\n2\n").data).length) (hi2 : i < rs.length),
         json_loads ((nonblank_lines ("1\n\n2\n").data).get ⟨i, hi⟩) =
           some (rs.get ⟨i, hi2⟩)) ∧
    detect_and_extract_records (" \n ").data = .ok [] :=
  ⟨(C2_detect_priority (("1\n\n2\n").data)).2.1 (by decide),
   (C2_detect_priority ((" \n ").data)).2.2 (by decide)⟩

end Med

namespace Med

theorem accEntryMatches_wf (threshold today : PyDate) (ms : List (List Char × Json))
    (hwf : wfEntry (.obj ms) = true) :
    accEntryMatches threshold today (.obj ms) =
      .ok (specEntryMatches threshold today (.obj ms)) := by
  rcases hv : objGet ms (("valid_until").data) with _ | w
  · simp [accEntryMatches, specEntryMatches, hv, parse_iso_date, pyTruthy]
  · cases w with
    | str s =>
      by_cases hs : s.isEmpty
      · have hs2 : s = [] := by simpa using hs
        subst hs2
        simp [accEntryMatches, specEntryMatches, hv, parse_iso_date, pyTruthy, fromIso, pyStrip]
      · have htr : pyTruthy (.str s) = true := by simpa [pyTruthy] using hs
        simp only [accEntryMatches, specEntryMatches, hv, Option.getD_some,
          parse_iso_date, htr, Bool.not_true, Bool.false_eq_true, if_false]
        cases hf : fromIso ((pyStrip s).take 10) <;> simp [hf]
    | null => simp [accEntryMatches, specEntryMatches, hv, parse_iso_date, pyTruthy]
    | bool b =>
      simp only [wfEntry, hv, Option.getD_some] at hwf
      have hb : pyTruthy (.bool b) = false := by simpa using hwf
      simp [accEntryMatches, specEntryMatches, hv, parse_iso_date, hb]
    | num m e =>
      simp only [wfEntry, hv, Option.getD_some] at hwf
      have hb : pyTruthy (.num m e) = false := by simpa using hwf
      simp [accEntryMatches, specEntryMatches, hv, parse_iso_date, hb]
    | arr xs =>
      simp only [wfEntry, hv, Option.getD_some] at hwf
      have hb : pyTruthy (.arr xs) = false := by simpa using hwf
      simp [accEntryMatches, specEntryMatches, hv, parse_iso_date, hb]
    | obj os =>
      simp only [wfEntry, hv, Option.getD_some] at hwf
      have hb : pyTruthy (.obj os) = false := by simpa using hwf
      simp [accEntryMatches, specEntryMatches, hv, parse_iso_date, hb]

theorem accLoop_wf (threshold today : PyDate) (entries : List Json)
    (h : ∀ e ∈ entries, wfEntry e = true) :
    accLoop threshold today entries =
      .ok (entries.any (specEntryMatches threshold today)) := by
  induction entries with
  | nil => rfl
  | cons e rest ih =>
    have hwe : wfEntry e = true := h e (by simp)
    have ih2 := ih (fun x hx => h x (by simp [hx]))
    cases e with
    | obj ms =>
      have he := accEntryMatches_wf threshold today ms hwe
      cases hsp : specEntryMatches threshold today (.obj ms)
      · rw [hsp] at he
        simp [accLoop, he, ih2, hsp]
      · rw [hsp] at he
        simp [accLoop, he, hsp]
    | null => exact absurd hwe (by decide)
    | bool b => exact Bool.noConfusion hwe
    | num m e2 => exact Bool.noConfusion hwe
    | str s => exact Bool.noConfusion hwe
    | arr xs => exact Bool.noConfusion hwe

theorem aew_wf_eq_spec (kvs : List (List Char × Json)) (threshold today : PyDate)
    (hwf : wf_record kvs = true) :
    accreditation_expires_within (.obj kvs) threshold today =
      .ok (spec_has_expiring (.obj kvs) threshold today) := by
  rcases hac : objGet kvs (("accreditations").data) with _ | w
  · simp [accreditation_expires_within, spec_has_expiring, hac, pyTruthy, iterElems, accLoop]
  · have hwf2 : wfAccs w = true := by
      have : wf_record kvs =
          wfAccs ((objGet kvs (("accreditations").data)).getD Json.null) := rfl
      rw [this, hac] at hwf
      exact hwf
    by_cases ht : pyTruthy w
    · have harr : ∃ entries, w = Json.arr entries ∧ entries.all wfEntry = true := by
        cases w with
        | arr entries =>
          refine ⟨entries, rfl, ?_⟩
          have : wfAccs (Json.arr entries) =
              (if !pyTruthy (Json.arr entries) then true else entries.all wfEntry) := rfl
          rw [this, ht] at hwf2
          simpa using hwf2
        | null => exact absurd ht (by decide)
        | bool b =>
          have : wfAccs (Json.bool b) = (if !pyTruthy (Json.bool b) then true else false) := rfl
          rw [this, ht] at hwf2
          simp at hwf2
        | num m e =>
          have : wfAccs (Json.num m e) = (if !pyTruthy (Json.num m e) then true else false) := rfl
          rw [this, ht] at hwf2
          simp at hwf2
        | str s =>
          have : wfAccs (Json.str s) = (if !pyTruthy (Json.str s) then true else false) := rfl
          rw [this, ht] at hwf2
          simp at hwf2
        | obj os =>
          have : wfAccs (Json.obj os) = (if !pyTruthy (Json.obj os) then true else false) := rfl
          rw [this, ht] at hwf2
          simp at hwf2
      obtain ⟨entries, rfl, hall⟩ := harr
      have hall2 : ∀ e ∈ entries, wfEntry e = true := List.all_eq_true.mp hall
      simp only [accreditation_expires_within, spec_has_expiring, hac,
        Option.getD_some, ht, if_pos, iterElems]
      exact accLoop_wf threshold today entries hall2
    · have hf : pyTruthy w = false := by simpa using ht
      cases w with
      | arr entries =>
        have he : entries = [] := by simpa [pyTruthy] using hf
        subst he
        simp [accreditation_expires_within, spec_has_expiring, hac, pyTruthy,
          iterElems, accLoop]
      | null =>
        simp [accreditation_expires_within, spec_has_expiring, hac, pyTruthy,
          iterElems, accLoop]
      | bool b =>
        have hb : b = false := by simpa [pyTruthy] using hf
        subst hb
        simp [accreditation_expires_within, spec_has_expiring, hac, pyTruthy,
          iterElems, accLoop]
      | num m e =>
        simp [accreditation_expires_within, spec_has_expiring, hac, hf,
          iterElems, accLoop]
      | str s =>
        simp [accreditation_expires_within, spec_has_expiring, hac, hf,
          iterElems, accLoop]
      | obj os =>
        simp [accreditation_expires_within, spec_has_expiring, hac, hf,
          iterElems, accLoop]

end Med

namespace Med

/-- C3 (counterexample): the claimed iff fails on a record (mapping)
with dates `today <= threshold`: this record's second accreditation
entry has a `valid_until` parsing into the window, yet the function
does not return true — it raises `AttributeError`, because the first
entry's truthy non-string `valid_until` reaches `s.strip()` outside
the `try`. -/
theorem C3_counterexample :
    accreditation_expires_within
      (.obj [(("accreditations").data, .arr
        [.obj [(("valid_until").data, .num 5 0)],
         .obj [(("valid_until").data, .str ("2024-01-15").data)]])])
      ⟨2024, 7, 2⟩ ⟨2024, 1, 1⟩ = .error .attrError ∧
    spec_has_expiring
      (.obj [(("accreditations").data, .arr
        [.obj [(("valid_until").data, .num 5 0)],
         .obj [(("valid_until").data, .str ("2024-01-15").data)]])])
      ⟨2024, 7, 2⟩ ⟨2024, 1, 1⟩ = true ∧
    dateLe ⟨2024, 1, 1⟩ ⟨2024, 7, 2⟩ = true := by
  exact ⟨by decide, by decide, by decide⟩

/-- C3 (amended): for every record (a mapping) that is well-formed —
its accreditations value is missing, null or otherwise falsy, or a
sequence of mappings whose present truthy `valid_until` values are
strings — and dates `today <= threshold`,
`accreditation_expires_within` returns true iff at least one entry's
stripped `valid_until` has first 10 characters parsing to a date `d`
with `today <= d <= threshold`; in particular a record with missing,
null or empty accreditations yields false.  On records outside this
shape the function can raise instead of returning. -/
theorem C3_expires_iff (kvs : List (List Char × Json)) (threshold today : PyDate)
    (hrange : dateLe today threshold = true)
    (hwf : wf_record kvs = true) :
    accreditation_expires_within (.obj kvs) threshold today =
      .ok (spec_has_expiring (.obj kvs) threshold today) :=
  aew_wf_eq_spec kvs threshold today hwf

/-- C3 witness: a one-entry record with `valid_until = "2024-03-01"`
inside the window `2024-01-01 .. 2024-07-02`. -/
theorem C3_expires_iff_witness :
    dateLe ⟨2024, 1, 1⟩ ⟨2024, 7, 2⟩ = true ∧
    wf_record [(("accreditations").data, Json.arr
      [Json.obj [(("valid_until").data, Json.str ("2024-03-01").data)]])] = true ∧
    accreditation_expires_within
      (.obj [(("accreditations").data, Json.arr
        [Json.obj [(("valid_until").data, Json.str ("2024-03-01").data)]])])
      ⟨2024, 7, 2⟩ ⟨2024, 1, 1⟩ =
      .ok (spec_has_expiring
        (.obj [(("accreditations").data, Json.arr
          [Json.obj [(("valid_until").data, Json.str ("2024-03-01").data)]])])
        ⟨2024, 7, 2⟩ ⟨2024, 1, 1⟩) :=
  ⟨by decide, by decide,
   C3_expires_iff _ ⟨2024, 7, 2⟩ ⟨2024, 1, 1⟩ (by decide) (by decide)⟩

/-- C6 (counterexample): `accreditation_expires_within` is not total
over all record contents: on a record whose accreditations sequence
holds a number instead of a mapping, `acc.get("valid_until")` raises
`AttributeError`. -/
theorem C6_counterexample :
    accreditation_expires_within
      (.obj [(("accreditations").data, .arr [.num 1 0])])
      ⟨2024, 7, 2⟩ ⟨2024, 1, 1⟩ = .error .attrError := by
  decide

/-- C6 (amended): the expiry filter never raises on a bad DATE: an
entry whose `valid_until` is missing or null (first two conjuncts) or
an unparseable string (first conjunct) is silently skipped, and over
well-formed records the function is total (third conjunct).  It is
not, however, total over all record contents: a non-mapping entry, a
truthy non-sequence accreditations value, or a truthy non-string
`valid_until` raises `AttributeError` or `TypeError`. -/
theorem C6_bad_dates_skipped (threshold today : PyDate) :
    (∀ (s : List Char) (rest : List Json),
       fromIso ((pyStrip s).take 10) = none →
       accLoop threshold today (Json.obj [(("valid_until").data, Json.str s)] :: rest) =
         accLoop threshold today rest) ∧
    (∀ (ms : List (List Char × Json)) (rest : List Json),
       (objGet ms (("valid_until").data)).getD Json.null = Json.null →
       accLoop threshold today (Json.obj ms :: rest) = accLoop threshold today rest) ∧
    (∀ kvs, wf_record kvs = true →
       ∃ b, accreditation_expires_within (.obj kvs) threshold today = .ok b) := by
  refine ⟨?_, ?_, ?_⟩
  · intro s rest hparse
    have hm : accEntryMatches threshold today
        (Json.obj [(("valid_until").data, Json.str s)]) = .ok false := by
      by_cases hs : s.isEmpty
      · have hs2 : s = [] := by simpa using hs
        subst hs2
        simp [accEntryMatches, objGet, parse_iso_date, pyTruthy]
      · have htr : pyTruthy (.str s) = true := by simpa [pyTruthy] using hs
        simp [accEntryMatches, objGet, parse_iso_date, htr, hparse]
    simp [accLoop, hm]
  · intro ms rest hnull
    have hm : accEntryMatches threshold today (Json.obj ms) = .ok false := by
      simp [accEntryMatches, hnull, parse_iso_date, pyTruthy]
    simp [accLoop, hm]
  · intro kvs hwf
    exact ⟨_, aew_wf_eq_spec kvs threshold today hwf⟩

/-- C6 witness: an entry with unparseable date `"soon"` is skipped (the
one-entry record yields false without raising), a record with entries
lacking `valid_until` is total, and a well-formed record evaluates to
some boolean. -/
theorem C6_bad_dates_skipped_witness :
    accLoop ⟨2024, 7, 2⟩ ⟨2024, 1, 1⟩
      [Json.obj [(("valid_until").data, Json.str ("soon").data)]] =
      accLoop ⟨2024, 7, 2⟩ ⟨2024, 1, 1⟩ [] ∧
    accLoop ⟨2024, 7, 2⟩ ⟨2024, 1, 1⟩ [Json.obj []] =
      accLoop ⟨2024, 7, 2⟩ ⟨2024, 1, 1⟩ [] ∧
    ∃ b, accreditation_expires_within
      (.obj [(("accreditations").data, Json.arr [Json.obj []])])
      ⟨2024, 7, 2⟩ ⟨2024, 1, 1⟩ = .ok b :=
  ⟨(C6_bad_dates_skipped ⟨2024, 7, 2⟩ ⟨2024, 1, 1⟩).1 (("soon").data) [] (by decide),
   (C6_bad_dates_skipped ⟨2024, 7, 2⟩ ⟨2024, 1, 1⟩).2.1 [] [] (by decide),
   (C6_bad_dates_skipped ⟨2024, 7, 2⟩ ⟨2024, 1, 1⟩).2.2 _ (by decide)⟩

end Med

namespace Med

theorem backoffFrom_succ (i : Nat) :
    ∀ d : ℚ, backoffFrom d (i + 1) = min (backoffFrom d i * 1.7) 10 := by
  induction i with
  | zero => intro d; rfl
  | succ j ih => intro d; exact ih (min (d * 1.7) 10)

theorem waitAux_spec (poll : Nat → List Char) (remaining : Nat → Int) :
    ∀ (fuel n : Nat) (delay : ℚ) (r : WaitResult) (sleeps : List ℚ),
      waitAux poll remaining fuel n delay = some (r, sleeps) →
      (∀ s, r = .finished s → isTerminalState s = true) ∧
      (r = .timedOut → remaining (n + sleeps.length) < 10000 ∧
         isTerminalState (poll (n + sleeps.length)) = false) ∧
      (∀ i (hi : i < sleeps.length),
         remaining (n + i) ≥ 10000 ∧
         isTerminalState (poll (n + i)) = false ∧
         sleeps.get ⟨i, hi⟩ = backoffFrom delay i) := by
  intro fuel
  induction fuel with
  | zero =>
    intro n delay r sleeps h
    exact absurd h (by simp [waitAux])
  | succ fuel ih =>
    intro n delay r sleeps h
    rw [waitAux] at h
    cases hterm : isTerminalState (poll n) with
    | true =>
      rw [hterm] at h
      simp only [if_true] at h
      obtain ⟨hr, hsl⟩ := Prod.mk.injEq .. ▸ Option.some.injEq .. ▸ h
      refine ⟨?_, ?_, ?_⟩
      · intro s hs2
        rw [← hr] at hs2
        injection hs2 with hps
        rw [← hps]
        exact hterm
      · intro hto
        rw [← hr] at hto
        exact absurd hto (by simp)
      · intro i hi
        rw [← hsl] at hi
        exact absurd hi (by simp)
    | false =>
      rw [hterm] at h
      simp only [Bool.false_eq_true, if_false] at h
      by_cases hrem : remaining n < 10000
      · rw [if_pos hrem] at h
        obtain ⟨hr, hsl⟩ := Prod.mk.injEq .. ▸ Option.some.injEq .. ▸ h
        refine ⟨?_, ?_, ?_⟩
        · intro s hs2
          rw [← hr] at hs2
          exact absurd hs2 (by simp)
        · intro hto
          rw [← hsl]
          simpa using ⟨hrem, by simpa using hterm⟩
        · intro i hi
          rw [← hsl] at hi
          exact absurd hi (by simp)
      · rw [if_neg hrem] at h
        rcases hrec : waitAux poll remaining fuel (n + 1) (min (delay * 1.7) 10)
          with _ | ⟨r2, sleeps2⟩
        · rw [hrec] at h
          exact absurd h (by simp)
        · rw [hrec] at h
          simp only [Option.some.injEq, Prod.mk.injEq] at h
          obtain ⟨hr, hsl⟩ := h
          obtain ⟨ih1, ih2, ih3⟩ := ih (n + 1) (min (delay * 1.7) 10) r2 sleeps2 hrec
          subst hr
          subst hsl
          refine ⟨ih1, ?_, ?_⟩
          · intro hto
            obtain ⟨ha, hb⟩ := ih2 hto
            have heq : n + (delay :: sleeps2).length = (n + 1) + sleeps2.length := by
              simp [List.length_cons]
              omega
            rw [heq]
            exact ⟨ha, hb⟩
          · intro i hi
            cases i with
            | zero =>
              refine ⟨by simpa using Int.not_lt.mp hrem, by simpa using hterm, rfl⟩
            | succ j =>
              have hj : j < sleeps2.length := by simpa using hi
              obtain ⟨ha, hb, hc⟩ := ih3 j hj
              have heq : n + (j + 1) = (n + 1) + j := by omega
              refine ⟨by rw [heq]; exact ha, by rw [heq]; exact hb, ?_⟩
              simpa using hc

/-- C4: every run of the poll loop observed through its sleep trace:
each sleep at round `i` happened only with at least the 10000 ms
safety margin remaining and lasted exactly the schedule value
`pollDelay i`; the schedule starts at 1 and steps by
`min(previous * 1.7, 10)`; a `TimeoutError` is signalled exactly at a
round with less than the margin remaining (and a non-terminal state);
a returned state is always terminal; and the local timeout is a
distinct signal from any returned state such as `FAILED`. -/
theorem C4_poll_loop (poll : Nat → List Char) (remaining : Nat → Int) (fuel : Nat)
    (r : WaitResult) (sleeps : List ℚ)
    (h : wait_for_query poll remaining fuel = some (r, sleeps)) :
    (∀ i (hi : i < sleeps.length),
       remaining i ≥ 10000 ∧ isTerminalState (poll i) = false ∧
       sleeps.get ⟨i, hi⟩ = pollDelay i) ∧
    (r = .timedOut → remaining sleeps.length < 10000 ∧
       isTerminalState (poll sleeps.length) = false) ∧
    (∀ s, r = .finished s → isTerminalState s = true) ∧
    pollDelay 0 = 1 ∧
    (∀ i, pollDelay (i + 1) = min (pollDelay i * 1.7) 10) ∧
    (∀ s, WaitResult.timedOut ≠ WaitResult.finished s) := by
  obtain ⟨h1, h2, h3⟩ := waitAux_spec poll remaining fuel 0 1 r sleeps h
  refine ⟨?_, ?_, h1, rfl, fun i => backoffFrom_succ i 1,
    fun s hcon => WaitResult.noConfusion hcon⟩
  · intro i hi
    simpa using h3 i hi
  · intro hto
    simpa using h2 hto

/-- C4 witness: with a query that turns terminal at round 2 and a
constant 30000 ms budget, the loop sleeps 1 then min(1*1.7, 10) and
returns the terminal state. -/
theorem C4_poll_loop_witness :
    c4rem 0 ≥ 10000 ∧ isTerminalState (c4poll 0) = false ∧
    [(1 : ℚ), min ((1 : ℚ) * 1.7) 10].get ⟨0, by decide⟩ = pollDelay 0 ∧
    isTerminalState (("SUCCEEDED").data) = true := by
  have h := C4_poll_loop c4poll c4rem 10 (.finished (("SUCCEEDED").data))
    [1, min ((1 : ℚ) * 1.7) 10] rfl
  have h0 := h.1 0 (by decide)
  exact ⟨h0.1, h0.2.1, h0.2.2, h.2.2.1 _ rfl⟩

end Med

namespace Med

/-- C5: per-object failures are recovered: a read/decode error gives 0
(first conjunct), a parse/format-detection failure gives 0 (second),
a write failure after a successful filter gives 0 (third), and none of
them raises, so the batch loop `run_keys` completes over all keys
whenever each object's processing returns normally (fourth). -/
theorem C5_per_object_recovery (putOk : Bool) (bucket key oP : List Char)
    (threshold today : PyDate) :
    (∀ e : ObjErr,
       (process_object (.error e) putOk bucket key oP threshold today).1 = .ok 0) ∧
    (∀ (text : List Char) (pe : PyErr),
       detect_and_extract_records text = .error pe →
       (process_object (.ok text) putOk bucket key oP threshold today).1 = .ok 0) ∧
    (∀ (text : List Char) (recs filtered : List Json),
       detect_and_extract_records text = .ok recs →
       filter_expiring threshold today recs = .ok filtered →
       (process_object (.ok text) false bucket key oP threshold today).1 = .ok 0) ∧
    (∀ (getBody : List Char → Except ObjErr (List Char))
       (putOkF : List Char → Bool) (keys : List (List Char)),
       (∀ k ∈ keys, ∃ n,
          (process_object (getBody k) (putOkF k) bucket k oP threshold today).1 = .ok n) →
       ∃ w, run_keys getBody putOkF bucket oP threshold today keys =
         .ok (keys.length, w)) := by
  refine ⟨fun e => rfl, ?_, ?_, ?_⟩
  · intro text pe hd
    simp [process_object, hd]
  · intro text recs filtered hd hf
    by_cases he : filtered.isEmpty <;> simp [process_object, hd, hf, he]
  · intro getBody putOkF keys hall
    induction keys with
    | nil => exact ⟨0, rfl⟩
    | cons k rest ih =>
      obtain ⟨n, hn⟩ := hall k (by simp)
      obtain ⟨w, hw⟩ := ih (fun x hx => hall x (by simp [hx]))
      refine ⟨w + n, ?_⟩
      simp [run_keys, hn, hw]

/-- C5 witness: a read error, the unparseable text `not json`, a write
failure on a one-record file inside the window, and a one-key batch
whose object read fails — all yield 0 without raising and the batch
completes. -/
theorem C5_per_object_recovery_witness :
    (process_object (.error .client) true ("b").data ("k").data ("o").data
      ⟨2024, 7, 2⟩ ⟨2024, 1, 1⟩).1 = .ok 0 ∧
    (process_object (.ok (("not json").data)) true ("b").data ("k").data ("o").data
      ⟨2024, 7, 2⟩ ⟨2024, 1, 1⟩).1 = .ok 0 ∧
    (process_object (.ok c5text) false ("b").data ("k").data ("o").data
      ⟨2024, 7, 2⟩ ⟨2024, 1, 1⟩).1 = .ok 0 ∧
    ∃ w, run_keys (fun _ => .error .client) (fun _ => true) ("b").data ("o").data
      ⟨2024, 7, 2⟩ ⟨2024, 1, 1⟩ [("k").data] = .ok (1, w) := by
  have h := C5_per_object_recovery true ("b").data ("k").data ("o").data
    ⟨2024, 7, 2⟩ ⟨2024, 1, 1⟩
  refine ⟨h.1 .client, h.2.1 (("not json").data) .valueError (by decide),
    h.2.2.1 c5text [c5rec] [c5rec] (by decide) (by decide), ?_⟩
  have h4 := h.2.2.2 (fun _ => .error .client) (fun _ => true) [("k").data]
    (fun k hk => ⟨0, rfl⟩)
  simpa using h4

theorem breakAtSep_of_mem (sep : Char) :
    ∀ s : List Char, sep ∈ s →
      ∃ a rest, breakAtSep sep s = some (a, rest) ∧
        s.count sep = rest.count sep + 1 := by
  intro s
  induction s with
  | nil => intro h; exact absurd h (by simp)
  | cons c cs ih =>
    intro hmem
    by_cases hc : c = sep
    · subst hc
      exact ⟨[], cs, by simp [breakAtSep], by simp [List.count_cons]⟩
    · have hmem2 : sep ∈ cs := by
        rcases List.mem_cons.mp hmem with h1 | h1
        · exact absurd h1.symm hc
        · exact h1
      obtain ⟨a, rest, hbr, hcount⟩ := ih hmem2
      refine ⟨c :: a, rest, ?_, ?_⟩
      · simp [breakAtSep, hc, hbr]
      · rw [List.count_cons]
        simp only [hcount]
        simp [hc]

theorem splitN_length (sep : Char) :
    ∀ (n : Nat) (s : List Char),
      n ≤ s.count sep → (splitN sep n s).length = n + 1 := by
  intro n
  induction n with
  | zero => intro s h; rfl
  | succ m ih =>
    intro s h
    have hmem : sep ∈ s := by
      have : 0 < s.count sep := by omega
      exact List.count_pos_iff.mp this
    obtain ⟨a, rest, hbr, hcount⟩ := breakAtSep_of_mem sep s hmem
    simp only [splitN, hbr, List.length_cons]
    rw [ih rest (by omega)]

end Med

namespace Med

/-- C7 (counterexample): on a successful query the marker written has
the field keys `source_bucket, source_key, date, query_execution_id,
output_prefix, status` — there is no field named `execution_id` as the
claim states. -/
theorem C7_counterexample :
    ((handle_record ("s3://mybkt/exports").data ⟨2024, 1, 1⟩ ("bkt").data ("key1").data
        (.ok ("qid1").data) (.observed (("SUCCEEDED").data)) true).2.map
      (fun p => p.fields.map Prod.fst)) =
      [[("source_bucket").data, ("source_key").data, ("date").data,
        ("query_execution_id").data, ("output_prefix").data, ("status").data]] ∧
    ("execution_id").data ∉
      [("source_bucket").data, ("source_key").data, ("date").data,
       ("query_execution_id").data, ("output_prefix").data, ("status").data] := by
  exact ⟨by decide, by decide⟩

/-- C7 (amended): after a successful submission, the handler attempts
the marker write iff the polled query reached `SUCCEEDED` (first
conjunct); on any other observed state it raises `RuntimeError` and
writes no marker (second); and on `SUCCEEDED` the single marker
carries exactly the fields `{source_bucket, source_key, date,
query_execution_id, output_prefix, status}` under the derived output
prefix (third). -/
theorem C7_marker_iff_succeeded (pfx : List Char) (today : PyDate)
    (sb sk qid : List Char) (mOk : Bool) (wait : WaitOutcome) :
    ((handle_record pfx today sb sk (.ok qid) wait mOk).2 ≠ [] ↔
       wait = .observed (("SUCCEEDED").data)) ∧
    (∀ s, wait = .observed s → s ≠ ("SUCCEEDED").data →
       handle_record pfx today sb sk (.ok qid) wait mOk = (.error .runtimeFailed, [])) ∧
    (wait = .observed (("SUCCEEDED").data) →
       ∃ ob okp, (handle_record pfx today sb sk (.ok qid) wait mOk).2 =
         [⟨ob, okp ++ ("marker.json").data,
           markerFields sb sk (dateIso today) qid
             (results_prefix_for_object pfx sb sk (dateIso today))⟩]) := by
  have hcount : 3 ≤ (results_prefix_for_object pfx sb sk (dateIso today)).count '/' := by
    simp [results_prefix_for_object, List.count_append, List.count_cons]
    omega
  have hlen : (splitN '/' 3 (results_prefix_for_object pfx sb sk (dateIso today))).length = 4 :=
    splitN_length '/' 3 _ hcount
  obtain ⟨ob, hob⟩ : ∃ ob,
      (splitN '/' 3 (results_prefix_for_object pfx sb sk (dateIso today))).get? 2 = some ob := by
    rw [List.get?_eq_get (by omega)]
    exact ⟨_, rfl⟩
  obtain ⟨okp, hokp⟩ : ∃ okp,
      (splitN '/' 3 (results_prefix_for_object pfx sb sk (dateIso today))).get? 3 = some okp := by
    rw [List.get?_eq_get (by omega)]
    exact ⟨_, rfl⟩
  rw [List.get?_eq_getElem?] at hob hokp
  cases wait with
  | apiError =>
    refine ⟨?_, ?_, ?_⟩
    · simp [handle_record]
    · intro s hs; exact absurd hs (by simp)
    · intro hw; exact absurd hw (by simp)
  | timedOutLocal =>
    refine ⟨?_, ?_, ?_⟩
    · simp [handle_record]
    · intro s hs; exact absurd hs (by simp)
    · intro hw; exact absurd hw (by simp)
  | observed s =>
    by_cases hs : s = ("SUCCEEDED").data
    · subst hs
      refine ⟨?_, ?_, ?_⟩
      · simp [handle_record, hob, hokp]
      · intro s2 hs2 hne
        injection hs2 with hs3
        exact absurd hs3.symm hne
      · intro hw
        exact ⟨ob, okp, by simp [handle_record, hob, hokp]⟩
    · refine ⟨?_, ?_, ?_⟩
      · simp only [handle_record, if_neg, hs]
        constructor
        · intro hne
          simp [hs] at hne
        · intro heq
          injection heq with heq2
          exact absurd heq2 hs
      · intro s2 hs2 hne
        injection hs2 with hs3
        subst hs3
        simp [handle_record, hs]
      · intro hw
        injection hw with hw2
        exact absurd hw2 hs
  
/-- C7 witness: on observed state `FAILED` the handler raises
`RuntimeError` and attempts no marker write. -/
theorem C7_marker_iff_succeeded_witness :
    handle_record ("s3://mybkt/exports").data ⟨2024, 1, 1⟩ ("bkt").data ("key1").data
      (.ok ("qid1").data) (.observed (("FAILED").data)) true =
      (.error .runtimeFailed, []) :=
  (C7_marker_iff_succeeded ("s3://mybkt/exports").data ⟨2024, 1, 1⟩ ("bkt").data
    ("key1").data ("qid1").data true (.observed (("FAILED").data))).2.1
    (("FAILED").data) rfl (by decide)

end Med
